import Mathlib

/-!
Verification development for the lightning-enable-mcp repository.

The definitions below are shallow embeddings of the Python sources:
  * `l402_client.py`  — L402 challenge parsing and the fetch/pay/retry flow
    (`L402Client.parse_l402_challenge`, `L402Client._get_invoice_amount_msat`,
    `L402Client.fetch`, `L402Challenge.amount_sats`);
  * `nwc_wallet.py`   — the preimage validation tail of `NWCWallet.pay_invoice`;
  * `budget_service.py` / `config.py` — `BudgetService.check_approval_level`,
    `record_spend`, `record_payment_time`, `reset_session`,
    `_is_cooldown_elapsed`, and the configuration/result data model.

Python strings are modelled as `String` (with `List Char` internals where
character scanning matters), Python `int` as `Int`/`Nat`, `decimal.Decimal`
arithmetic as exact rationals `ℚ` with explicit half-even rounding to two
places where the source rounds, and wall-clock instants as rationals
(seconds).  Exceptions become `Except`/sum results, and the network
(HTTP responses, the wallet RPC, the bolt11 decoder, the BTC price) becomes
explicit parameters.
-/

deriving instance DecidableEq for Except

/-! ### Character-list utilities (Python `str` scanning) -/

/-- The double-quote character, written via its code point. -/
def quoteChar : Char := Char.ofNat 34

/-- Python list version of `s.startswith(p)`: `startsWithL p s` is Python's `s.startswith(p)` on character lists. -/
def startsWithL : List Char → List Char → Bool
  | [], _ => true
  | _ :: _, [] => false
  | p :: ps, c :: cs => p == c && startsWithL ps cs

/-- Python list version of `s.endswith(p)`: `endsWithL p s` is Python's `s.endswith(p)` on character lists. -/
def endsWithL (p s : List Char) : Bool :=
  startsWithL p.reverse s.reverse

/-- Containment test `hasSub pat s`: `pat` occurs as a contiguous run inside `s`
(Python's `pat in s`). -/
def hasSub (pat : List Char) : List Char → Bool
  | [] => pat.isEmpty
  | c :: rest => startsWithL pat (c :: rest) || hasSub pat rest

theorem startsWithL_iff (p s : List Char) :
    startsWithL p s = true ↔ ∃ t, s = p ++ t := by
  induction p generalizing s with
  | nil => simp [startsWithL]
  | cons a ps ih =>
    cases s with
    | nil => simp [startsWithL]
    | cons c cs =>
      simp only [startsWithL, Bool.and_eq_true, beq_iff_eq, ih]
      constructor
      · rintro ⟨rfl, t, rfl⟩; exact ⟨t, rfl⟩
      · rintro ⟨t, h⟩
        rw [List.cons_append] at h
        injection h with h1 h2
        exact ⟨h1.symm, t, h2⟩

theorem startsWithL_append_self (p r : List Char) :
    startsWithL p (p ++ r) = true :=
  (startsWithL_iff p (p ++ r)).mpr ⟨r, rfl⟩

theorem endsWithL_eq_false_iff (p s : List Char) :
    endsWithL p s = false ↔ ∀ t, s ≠ t ++ p := by
  have h : endsWithL p s = true ↔ ∃ t, s = t ++ p := by
    rw [endsWithL, startsWithL_iff]
    constructor
    · rintro ⟨t, ht⟩
      refine ⟨t.reverse, ?_⟩
      have := congrArg List.reverse ht
      simpa using this
    · rintro ⟨t, rfl⟩
      exact ⟨t.reverse, by simp⟩
  constructor
  · intro hf t ht
    have : endsWithL p s = true := h.mpr ⟨t, ht⟩
    simp [hf] at this
  · intro hall
    by_contra hne
    have : endsWithL p s = true := by
      cases hb : endsWithL p s with
      | false => exact absurd hb hne
      | true => rfl
    obtain ⟨t, ht⟩ := h.mp this
    exact hall t ht

/-! ### L402 data model (`l402_client.py`) -/

/-- Errors raised inside `L402Client` (`L402Error`, `L402BudgetExceededError`
and propagated wallet payment failures). -/
inductive FetchErr
  | l402Error (msg : String)
  | budgetExceeded (msg : String)
  | paymentError (msg : String)
deriving DecidableEq, Repr

/-- The fields of a decoded bolt11 invoice that
`L402Client._get_invoice_amount_msat` inspects: the optional `amount_msat`
attribute and the optional legacy `amount` attribute (in satoshis).
`none` at the outer level in `decoder` below models a decoding exception. -/
structure DecodedInvoice where
  amount_msat : Option Nat
  amount : Option Nat
deriving DecidableEq, Repr

/-- Python truthiness of an optional integer attribute:
present and non-zero. -/
def truthyNat : Option Nat → Bool
  | some n => n != 0
  | none => false

/-- Embeds `L402Client._get_invoice_amount_msat`: best-effort extraction of the
invoice amount in millisatoshis; `decoder` stands for the external
`bolt11.decode` call (`none` = the call raised). -/
def get_invoice_amount_msat (decoder : String → Option DecodedInvoice)
    (bolt11 : String) : Option Nat :=
  match decoder bolt11 with
  | none => none
  | some dec =>
    if truthyNat dec.amount_msat then dec.amount_msat
    else if truthyNat dec.amount then dec.amount.map (· * 1000)
    else none

/-- Embeds `L402Challenge`: parsed L402 challenge from a WWW-Authenticate header. -/
structure L402Challenge where
  macaroon : String
  invoice : String
  amount_msat : Option Nat
deriving DecidableEq, Repr

/-- Embeds `L402Challenge.amount_sats`: `amount_msat // 1000` when present. -/
def L402Challenge.amount_sats (c : L402Challenge) : Option Nat :=
  c.amount_msat.map (· / 1000)

/-- Embeds `L402Token.to_header`: `L402 <macaroon>:<preimage>`. -/
def l402TokenHeader (macaroon preimage : String) : String :=
  String.mk ("L402 ".data ++ macaroon.data ++ ":".data ++ preimage.data)

/-! The regex searches `re.search(r'macaroon="([^"]+)"', s)` and
`re.search(r'invoice="([^"]+)"', s)` are literal-then-capture patterns:
the leftmost position where the literal part matches and at least one
non-quote character followed by a closing quote can be captured wins. -/

/-- The capture `([^"]+)"`: a maximal non-empty run of non-quote characters
that must be followed by a closing quote. -/
def captureQuoted (s : List Char) : Option (List Char) :=
  let v := s.takeWhile (fun c => c != quoteChar)
  if 1 ≤ v.length ∧ v.length < s.length then some v else none

/-- Leftmost search for `pat` followed by a `([^"]+)"` capture, as
`re.search` performs for the literal-then-capture patterns above. -/
def searchCapture (pat : List Char) : List Char → Option (List Char)
  | [] => none
  | c :: rest =>
    if startsWithL pat (c :: rest) then
      match captureQuoted ((c :: rest).drop pat.length) with
      | some v => some v
      | none => searchCapture pat rest
    else searchCapture pat rest

/-- The literal part of the macaroon pattern. -/
def macPat : List Char := "macaroon=".data ++ [quoteChar]

/-- The literal part of the invoice pattern. -/
def invPat : List Char := "invoice=".data ++ [quoteChar]

/-- Embeds `L402Client.parse_l402_challenge`. -/
def parse_l402_challenge (decoder : String → Option DecodedInvoice)
    (www_authenticate : String) : Except String L402Challenge :=
  let cs := www_authenticate.data
  if startsWithL "L402 ".data cs || startsWithL "LSAT ".data cs then
    match searchCapture macPat cs with
    | none => .error "Missing macaroon in L402 challenge"
    | some mac =>
      match searchCapture invPat cs with
      | none => .error "Missing invoice in L402 challenge"
      | some inv =>
        let invoice := String.mk inv
        .ok { macaroon := String.mk mac
              invoice := invoice
              amount_msat := get_invoice_amount_msat decoder invoice }
  else
    .error (String.mk ("Invalid L402 challenge: ".data ++ cs.take 50))

/-- An HTTP response as `L402Client.fetch` inspects it: status code,
the WWW-Authenticate header (absent = `headers.get` returned `None`),
and the body text. -/
structure HttpResponse where
  status : Nat
  www_authenticate : Option String
  text : String
deriving DecidableEq, Repr

/-- The budget guard of `fetch`:
`challenge.amount_sats is not None and challenge.amount_sats > max_sats`. -/
def amountExceedsB (ch : L402Challenge) (max_sats : Nat) : Bool :=
  match ch.amount_sats with
  | some a => decide (a > max_sats)
  | none => false

/-- Embeds `L402Client.fetch`, with the two HTTP round-trips and the wallet call
made explicit: `initial` is the response to the original request, `pay`
is `self.wallet.pay_invoice` (error = the call raised), and `retried` is
the response to the request resent with the authorization header.
Returns the fetch outcome paired with the number of `pay_invoice`
invocations performed. -/
def fetch (decoder : String → Option DecodedInvoice) (max_sats : Nat)
    (initial : HttpResponse) (pay : String → Except String String)
    (retried : HttpResponse) :
    Except FetchErr (String × Option Nat) × Nat :=
  if initial.status = 402 then
    match initial.www_authenticate with
    | none => (.error (.l402Error "402 response without WWW-Authenticate header"), 0)
    | some www_auth =>
      if www_auth = "" then
        (.error (.l402Error "402 response without WWW-Authenticate header"), 0)
      else
        match parse_l402_challenge decoder www_auth with
        | .error e => (.error (.l402Error e), 0)
        | .ok challenge =>
          if amountExceedsB challenge max_sats then
            (.error (.budgetExceeded (String.mk
              ("Invoice amount ".data
                ++ (toString (challenge.amount_sats.getD 0)).data
                ++ " sats exceeds maximum ".data
                ++ (toString max_sats).data ++ " sats".data))), 0)
          else
            match pay challenge.invoice with
            | .error e => (.error (.paymentError e), 1)
            | .ok _preimage =>
              if retried.status ≥ 400 then
                (.error (.l402Error (String.mk
                  ("Request failed after payment: ".data
                    ++ (toString retried.status).data ++ " ".data
                    ++ retried.text.data.take 200))), 1)
              else
                (.ok (retried.text, challenge.amount_sats), 1)
  else if initial.status ≥ 400 then
    (.error (.l402Error (String.mk
      ("Request failed: ".data ++ (toString initial.status).data
        ++ " ".data ++ initial.text.data.take 200))), 0)
  else
    (.ok (initial.text, none), 0)

/-! ### Preimage validation (`nwc_wallet.py`, tail of `NWCWallet.pay_invoice`) -/

/-- One left-to-right, non-overlapping pass of Python's
`s.replace("0x", "")`. -/
def replace0x : List Char → List Char
  | '0' :: 'x' :: rest => replace0x rest
  | c :: rest => c :: replace0x rest
  | [] => []

/-- The normalization the code applies to a returned secret:
`preimage.replace("0x", "").replace(" ", "").lower()`. -/
def normalizePreimage (s : String) : String :=
  String.mk (((replace0x s.data).filter (fun c => c != ' ')).map Char.toLower)

/-- The strict hex alphabet `"0123456789abcdef"` of the final check. -/
def isHexChar (c : Char) : Bool :=
  "0123456789abcdef".data.contains c

/-- Error raised when the secret structurally resembles a payment request. -/
def invoiceLikeMsg : String :=
  "Wallet returned invoice instead of preimage. This may be a bug in your NWC wallet implementation."

/-- Error raised when the normalized secret fails the hex check; it embeds
the first 20 characters of the normalized value. -/
def hexErrMsg (normalized : String) : String :=
  String.mk ("Invalid preimage format. Expected hex string, got: ".data
    ++ normalized.data.take 20 ++ "...".data)

/-- The validation tail of `NWCWallet.pay_invoice` applied to the secret
extracted from the counterparty response (`nwc_wallet.py` lines 440-459):
reject payment-request-like values, normalize, then require strict hex. -/
def pay_invoice_validate (preimage : String) : Except String String :=
  if startsWithL "lnbc".data preimage.data
      || startsWithL "lntb".data preimage.data
      || startsWithL "lnurl".data preimage.data then
    .error invoiceLikeMsg
  else
    let normalized := normalizePreimage preimage
    if normalized.data.all isHexChar then
      .ok normalized
    else
      .error (hexErrMsg normalized)

/-- Modelled from the spec wording of claim C5 (for comparison only, not
from the source): normalize "by stripping an optional prefix and
whitespace and lowercasing" — drop one leading `0x`, drop whitespace,
lowercase. -/
def specNormalizePreimage (s : String) : String :=
  let stripped := match s.data with
    | '0' :: 'x' :: rest => rest
    | l => l
  String.mk ((stripped.filter (fun c => !c.isWhitespace)).map Char.toLower)

/-! ### Budget service data model (`config.py`) -/

/-- Embeds `ApprovalLevel` (config.py). -/
inductive ApprovalLevel
  | auto_approve
  | log_and_approve
  | form_confirm
  | url_confirm
  | deny
deriving DecidableEq, Repr

/-- Embeds `TierThresholds` (USD amounts, `Decimal` in the source). -/
structure TierThresholds where
  auto_approve : ℚ
  log_and_approve : ℚ
  form_confirm : ℚ
  url_confirm : ℚ
deriving DecidableEq, Repr

/-- Embeds `PaymentLimits` (USD amounts; `none` = unlimited). -/
structure PaymentLimits where
  max_per_payment : Option ℚ
  max_per_session : Option ℚ
deriving DecidableEq, Repr

/-- Embeds `SessionSettings`; `cooldown_seconds` is an `int` in the source;
it is embedded into `ℚ` here so that it can be compared with elapsed
wall-clock seconds. -/
structure SessionSettings where
  require_approval_for_first_payment : Bool
  cooldown_seconds : ℚ
deriving DecidableEq, Repr

/-- Embeds `UserBudgetConfiguration` (the `currency` and `wallets` fields play no
role in any claim and are omitted). -/
structure UserBudgetConfiguration where
  tiers : TierThresholds
  limits : PaymentLimits
  session : SessionSettings
deriving DecidableEq, Repr

/-- The mutable session-tracking fields of `BudgetService`
(`_session_spent_sats`, `_session_spent_usd`, `_request_count`,
`_session_started`, `_last_payment_time`, `_is_first_payment`).
Instants are modelled as rational timestamps in seconds. -/
structure SessionState where
  session_spent_sats : Int
  session_spent_usd : ℚ
  request_count : Nat
  session_started : ℚ
  last_payment_time : ℚ
  is_first_payment : Bool
deriving DecidableEq, Repr

/-- The structured content of the denial-reason message each `DENY`
branch of `check_approval_level` formats (which check fired, and which
numbers its f-string embeds). -/
inductive DenialReason
  | sessionLimit (amountUsd spentUsd limitUsd remainingUsd : ℚ)
  | perPaymentLimit (amountUsd limitUsd : ℚ)
  | cooldown (remainingSeconds : ℚ)
deriving DecidableEq, Repr

/-- The structured content of the confirmation message the non-deny
branches format. -/
inductive ConfirmationMessage
  | firstPayment (amountUsd : ℚ) (amountSats : Int)
  | formConfirm (amountUsd : ℚ) (amountSats : Int)
  | urlConfirmLarge (amountUsd : ℚ)
  | urlConfirmAbove (amountUsd : ℚ)
deriving DecidableEq, Repr

/-- Embeds `ApprovalCheckResult` (config.py). -/
structure ApprovalCheckResult where
  level : ApprovalLevel
  amount_sats : Int
  amount_usd : ℚ
  denial_reason : Option DenialReason
  confirmation_message : Option ConfirmationMessage
  remaining_session_budget_usd : ℚ
deriving DecidableEq, Repr

/-- Embeds `ApprovalCheckResult.can_proceed`: `level != DENY`. -/
def ApprovalCheckResult.can_proceed (r : ApprovalCheckResult) : Bool :=
  r.level != ApprovalLevel.deny

/-- Embeds `ApprovalCheckResult.requires_confirmation`:
`level in (FORM_CONFIRM, URL_CONFIRM)`. -/
def ApprovalCheckResult.requires_confirmation (r : ApprovalCheckResult) : Bool :=
  r.level == ApprovalLevel.form_confirm || r.level == ApprovalLevel.url_confirm

/-! ### Budget service operations (`budget_service.py`, `price_service.py`) -/

/-- Round a rational to the nearest integer, ties to even — the rounding
`decimal.Decimal` applies under Python's default context. -/
def roundHalfEven (x : ℚ) : Int :=
  let f := ⌊x⌋
  let r := x - f
  if r < 1/2 then f
  else if 1/2 < r then f + 1
  else if f % 2 = 0 then f else f + 1

/-- Round to two decimal places, ties to even — Python's `round(d, 2)`
on a `Decimal`. -/
def round2 (x : ℚ) : ℚ :=
  (roundHalfEven (x * 100) : ℚ) / 100

/-- Embeds `PriceService.sats_to_usd` at a given BTC/USD price:
`round(Decimal(sats) / SATS_PER_BTC * btc_price, 2)`. -/
def sats_to_usd (price : ℚ) (sats : Int) : ℚ :=
  round2 ((sats : ℚ) / 100000000 * price)

/-- Embeds Python's falsy-coalescing `value or default` on an optional
`Decimal` (`config.limits.max_per_session or Decimal("999999999")`,
budget_service.py line 135): the default is taken when the value is
absent **or zero**, since `Decimal("0")` is falsy. -/
def orFalsy (o : Option ℚ) (d : ℚ) : ℚ :=
  match o with
  | some v => if v ≠ 0 then v else d
  | none => d

/-- Embeds `BudgetService._is_cooldown_elapsed` at instant `now`:
`(now - last_payment_time).total_seconds() >= cooldown_seconds`. -/
def is_cooldown_elapsed (config : UserBudgetConfiguration) (now : ℚ)
    (s : SessionState) : Bool :=
  decide (now - s.last_payment_time ≥ config.session.cooldown_seconds)

/-- The session-limit test of `check_approval_level`:
`max_per_session is not None and spent_usd + amount_usd > max_per_session`. -/
def overSessionLimitB (limits : PaymentLimits) (spentUsd amountUsd : ℚ) : Bool :=
  match limits.max_per_session with
  | some lim => decide (spentUsd + amountUsd > lim)
  | none => false

/-- The per-payment-limit test of `check_approval_level`:
`max_per_payment is not None and amount_usd > max_per_payment`. -/
def overPaymentLimitB (limits : PaymentLimits) (amountUsd : ℚ) : Bool :=
  match limits.max_per_payment with
  | some lim => decide (amountUsd > lim)
  | none => false

/-- Embeds `BudgetService.check_approval_level` at BTC/USD price `price` and
instant `now`.  (The sats-threshold cache `_update_thresholds_if_needed`
maintains is never read by the decision logic and is omitted.) -/
def check_approval_level (config : UserBudgetConfiguration) (price now : ℚ)
    (s : SessionState) (amount_sats : Int) : ApprovalCheckResult :=
  let amount_usd := sats_to_usd price amount_sats
  let session_spent_usd := sats_to_usd price s.session_spent_sats
  let session_limit_usd := orFalsy config.limits.max_per_session 999999999
  let remaining_session_usd := session_limit_usd - session_spent_usd
  if overSessionLimitB config.limits session_spent_usd amount_usd then
    { level := .deny
      amount_sats := amount_sats
      amount_usd := amount_usd
      denial_reason := some (.sessionLimit amount_usd session_spent_usd
        session_limit_usd remaining_session_usd)
      confirmation_message := none
      remaining_session_budget_usd := max 0 remaining_session_usd }
  else if overPaymentLimitB config.limits amount_usd then
    { level := .deny
      amount_sats := amount_sats
      amount_usd := amount_usd
      denial_reason := some (.perPaymentLimit amount_usd
        (config.limits.max_per_payment.getD 0))
      confirmation_message := none
      remaining_session_budget_usd := max 0 remaining_session_usd }
  else if !is_cooldown_elapsed config now s then
    { level := .deny
      amount_sats := amount_sats
      amount_usd := amount_usd
      denial_reason := some (.cooldown
        (config.session.cooldown_seconds - (now - s.last_payment_time)))
      confirmation_message := none
      remaining_session_budget_usd := max 0 remaining_session_usd }
  else if s.is_first_payment && config.session.require_approval_for_first_payment then
    { level := if amount_usd > config.tiers.form_confirm
        then .url_confirm else .form_confirm
      amount_sats := amount_sats
      amount_usd := amount_usd
      denial_reason := none
      confirmation_message := some (.firstPayment amount_usd amount_sats)
      remaining_session_budget_usd := max 0 remaining_session_usd }
  else if amount_usd ≤ config.tiers.auto_approve then
    { level := .auto_approve
      amount_sats := amount_sats
      amount_usd := amount_usd
      denial_reason := none
      confirmation_message := none
      remaining_session_budget_usd := max 0 remaining_session_usd }
  else if amount_usd ≤ config.tiers.log_and_approve then
    { level := .log_and_approve
      amount_sats := amount_sats
      amount_usd := amount_usd
      denial_reason := none
      confirmation_message := none
      remaining_session_budget_usd := max 0 remaining_session_usd }
  else if amount_usd ≤ config.tiers.form_confirm then
    { level := .form_confirm
      amount_sats := amount_sats
      amount_usd := amount_usd
      denial_reason := none
      confirmation_message := some (.formConfirm amount_usd amount_sats)
      remaining_session_budget_usd := max 0 remaining_session_usd }
  else if amount_usd ≤ config.tiers.url_confirm then
    { level := .url_confirm
      amount_sats := amount_sats
      amount_usd := amount_usd
      denial_reason := none
      confirmation_message := some (.urlConfirmLarge amount_usd)
      remaining_session_budget_usd := max 0 remaining_session_usd }
  else
    { level := .url_confirm
      amount_sats := amount_sats
      amount_usd := amount_usd
      denial_reason := none
      confirmation_message := some (.urlConfirmAbove amount_usd)
      remaining_session_budget_usd := max 0 remaining_session_usd }

/-- Embeds `BudgetService.record_spend` at cached BTC/USD price `price`:
returns the session state after the call together with the raised
validation error, if any (the `raise` happens before any mutation, so on
error the state component is the input state unchanged). -/
def record_spend (price : ℚ) (s : SessionState) (amount_sats : Int) :
    SessionState × Option String :=
  if amount_sats < 0 then
    (s, some "Amount cannot be negative")
  else
    let amount_usd := round2 ((amount_sats : ℚ) / 100000000 * price)
    ({ s with
        session_spent_sats := s.session_spent_sats + amount_sats
        session_spent_usd := s.session_spent_usd + amount_usd
        request_count := s.request_count + 1
        is_first_payment := false }, none)

/-- Embeds `BudgetService.record_payment_time` at instant `now`. -/
def record_payment_time (now : ℚ) (s : SessionState) : SessionState :=
  { s with last_payment_time := now }

/-- Embeds `BudgetService.reset_session` at instant `now`. -/
def reset_session (now : ℚ) (s : SessionState) : SessionState :=
  { s with
      session_spent_sats := 0
      session_spent_usd := 0
      request_count := 0
      session_started := now
      is_first_payment := true }

/-- Whether a decision was denied for the cooldown reason. -/
def isCooldownDenial (r : ApprovalCheckResult) : Bool :=
  match r.denial_reason with
  | some (.cooldown _) => true
  | _ => false

/-! ### Leftmost-search lemmas for the challenge parser -/

/-- Region predicate: `noStartIn pat pre tail = true` iff no position inside `pre` starts a
literal match of `pat` in `pre ++ tail` (matches may extend into `tail`). -/
def noStartIn (pat : List Char) : List Char → List Char → Bool
  | [], _ => true
  | c :: pre, tail => !startsWithL pat (c :: (pre ++ tail)) && noStartIn pat pre tail

theorem searchCapture_skip (pat pre tail : List Char)
    (h : noStartIn pat pre tail = true) :
    searchCapture pat (pre ++ tail) = searchCapture pat tail := by
  induction pre with
  | nil => rfl
  | cons c pre ih =>
    simp only [noStartIn, Bool.and_eq_true, Bool.not_eq_true'] at h
    obtain ⟨h1, h2⟩ := h
    simpa [searchCapture, h1] using ih h2

theorem noStartIn_append (pat a b tail : List Char) :
    noStartIn pat (a ++ b) tail
      = (noStartIn pat a (b ++ tail) && noStartIn pat b tail) := by
  induction a with
  | nil => simp [noStartIn]
  | cons c a ih =>
    simp [noStartIn, ih, List.append_assoc, Bool.and_assoc]

theorem noStartIn_of_head_ne (p0 : Char) (pat pre tail : List Char)
    (h : ∀ c ∈ pre, c ≠ p0) :
    noStartIn (p0 :: pat) pre tail = true := by
  induction pre with
  | nil => rfl
  | cons c pre ih =>
    have hc : c ≠ p0 := h c (List.mem_cons_self c pre)
    have hrec := ih (fun x hx => h x (List.mem_cons_of_mem c hx))
    simp [noStartIn, startsWithL, hrec]
    exact Or.inl (fun h' => hc h'.symm)

theorem takeWhile_append_stop (p : Char → Bool) (l : List Char) (x : Char)
    (r : List Char) (hl : ∀ c ∈ l, p c = true) (hx : p x = false) :
    (l ++ x :: r).takeWhile p = l := by
  induction l with
  | nil => simp [List.takeWhile, hx]
  | cons c l ih =>
    have hc : p c = true := hl c (List.mem_cons_self c l)
    simp [List.takeWhile, hc, ih (fun d hd => hl d (List.mem_cons_of_mem c hd))]

theorem captureQuoted_append (m rest : List Char) (hm : m ≠ [])
    (hq : quoteChar ∉ m) :
    captureQuoted (m ++ quoteChar :: rest) = some m := by
  have htw : (m ++ quoteChar :: rest).takeWhile (fun c => c != quoteChar) = m := by
    refine takeWhile_append_stop _ m quoteChar rest ?_ (by simp)
    intro c hc
    simp only [bne_iff_ne, ne_eq, decide_eq_true_eq]
    exact fun h => hq (h ▸ hc)
  have hlen : 1 ≤ m.length := by
    cases m with
    | nil => exact absurd rfl hm
    | cons _ _ => simp
  simp only [captureQuoted, htw]
  rw [if_pos]
  exact ⟨hlen, by simp [Nat.lt_succ_of_le, Nat.le_add_right]⟩

theorem startsWithL_cross_false (w m tail2 : List Char)
    (hqw : quoteChar ∉ w) (hqm : quoteChar ∉ m)
    (hmw : ∀ t, m ≠ t ++ w) :
    startsWithL (w ++ [quoteChar]) (m ++ quoteChar :: tail2) = false := by
  by_contra hne
  have htrue : startsWithL (w ++ [quoteChar]) (m ++ quoteChar :: tail2) = true := by
    cases hb : startsWithL (w ++ [quoteChar]) (m ++ quoteChar :: tail2) with
    | false => exact absurd hb hne
    | true => rfl
  obtain ⟨t, heq⟩ := (startsWithL_iff _ _).mp htrue
  rcases lt_trichotomy m.length w.length with hlt | hl | hgt
  · -- the quote after `m` would land inside `w`
    have h1 := congrArg (List.take (m.length + 1)) heq
    rw [List.take_append_eq_append_take, List.take_of_length_le (by omega),
      Nat.add_sub_cancel_left, List.append_assoc,
      List.take_append_of_le_length (by omega)] at h1
    have hqmem : quoteChar ∈ w.take (m.length + 1) := by
      rw [← h1]
      simp [List.take]
    exact hqw (List.take_subset _ _ hqmem)
  · -- `m` would be exactly `w`
    have h1 := congrArg (List.take m.length) heq
    rw [List.take_left, List.append_assoc,
      List.take_append_of_le_length (by omega), List.take_of_length_le (by omega)] at h1
    exact hmw [] (by simpa using h1)
  · -- the quote ending the pattern would land inside `m`
    have h1 := congrArg (List.take (w.length + 1)) heq
    rw [List.take_append_of_le_length (by omega)] at h1
    have h2 : (w ++ [quoteChar] ++ t).take (w.length + 1) = w ++ [quoteChar] := by
      have : (w ++ [quoteChar]).length = w.length + 1 := by simp
      rw [← this, List.take_left]
    rw [h2] at h1
    have hqmem : quoteChar ∈ m.take (w.length + 1) := by
      rw [h1]; simp
    exact hqm (List.take_subset _ _ hqmem)

theorem noStartIn_value_region (w m tail2 : List Char)
    (hqw : quoteChar ∉ w) (hqm : quoteChar ∉ m)
    (hmw : ∀ t, m ≠ t ++ w) :
    noStartIn (w ++ [quoteChar]) m (quoteChar :: tail2) = true := by
  induction m with
  | nil => rfl
  | cons c m ih =>
    have hqm' : quoteChar ∉ m := fun h => hqm (List.mem_cons_of_mem c h)
    have hmw' : ∀ t, m ≠ t ++ w := by
      intro t ht
      exact hmw (c :: t) (by simp [ht])
    have hcross : startsWithL (w ++ [quoteChar]) ((c :: m) ++ quoteChar :: tail2) = false :=
      startsWithL_cross_false w (c :: m) tail2 hqw hqm hmw
    simp only [noStartIn, ih hqm' hmw', Bool.and_true, Bool.not_eq_true']
    simpa using hcross


theorem searchCapture_found (pat m rest : List Char) (hpat : pat ≠ [])
    (hm : m ≠ []) (hq : quoteChar ∉ m) :
    searchCapture pat (pat ++ (m ++ quoteChar :: rest)) = some m := by
  cases pat with
  | nil => exact absurd rfl hpat
  | cons p ps =>
    rw [List.cons_append, searchCapture]
    have hsw : startsWithL (p :: ps) (p :: (ps ++ (m ++ quoteChar :: rest))) = true := by
      have := startsWithL_append_self (p :: ps) (m ++ quoteChar :: rest)
      rwa [List.cons_append] at this
    rw [hsw]
    have hdrop : (p :: (ps ++ (m ++ quoteChar :: rest))).drop (p :: ps).length
        = m ++ quoteChar :: rest := by
      have := List.drop_left (p :: ps) (m ++ quoteChar :: rest)
      rwa [List.cons_append] at this
    simp only [if_true, hdrop, captureQuoted_append m rest hm hq]

/-- A well-formed challenge header
`<scheme> macaroon="<mac>", invoice="<inv>"` as a single string. -/
def mkL402Header (scheme : String) (mac inv : List Char) : String :=
  String.mk (scheme.data ++ " macaroon=".data ++ [quoteChar] ++ mac
    ++ [quoteChar] ++ ", invoice=".data ++ [quoteChar] ++ inv ++ [quoteChar])

theorem macaroon_search_wellformed (scheme : String) (mac inv : List Char)
    (hsch : scheme = "L402" ∨ scheme = "LSAT")
    (hm0 : mac ≠ []) (hmq : quoteChar ∉ mac) :
    searchCapture macPat (mkL402Header scheme mac inv).data = some mac := by
  have hpat : macPat = 'm' :: ("acaroon=".data ++ [quoteChar]) := by decide
  rcases hsch with rfl | rfl
  · have hg : ("L402".data : List Char) ++ " macaroon=".data ++ [quoteChar]
        = "L402 ".data ++ macPat := by decide
    have hview : (mkL402Header "L402" mac inv).data
        = "L402 ".data ++ (macPat ++ (mac ++ quoteChar :: (", invoice=".data
            ++ ([quoteChar] ++ (inv ++ [quoteChar]))))) := by
      show ("L402".data : List Char) ++ " macaroon=".data ++ [quoteChar] ++ mac
          ++ [quoteChar] ++ ", invoice=".data ++ [quoteChar] ++ inv ++ [quoteChar] = _
      rw [hg]
      simp [List.append_assoc]
    rw [hview, searchCapture_skip _ _ _ (by rw [hpat]; exact noStartIn_of_head_ne _ _ _ _ (by decide))]
    exact searchCapture_found _ _ _ (by decide) hm0 hmq
  · have hg : ("LSAT".data : List Char) ++ " macaroon=".data ++ [quoteChar]
        = "LSAT ".data ++ macPat := by decide
    have hview : (mkL402Header "LSAT" mac inv).data
        = "LSAT ".data ++ (macPat ++ (mac ++ quoteChar :: (", invoice=".data
            ++ ([quoteChar] ++ (inv ++ [quoteChar]))))) := by
      show ("LSAT".data : List Char) ++ " macaroon=".data ++ [quoteChar] ++ mac
          ++ [quoteChar] ++ ", invoice=".data ++ [quoteChar] ++ inv ++ [quoteChar] = _
      rw [hg]
      simp [List.append_assoc]
    rw [hview, searchCapture_skip _ _ _ (by rw [hpat]; exact noStartIn_of_head_ne _ _ _ _ (by decide))]
    exact searchCapture_found _ _ _ (by decide) hm0 hmq

theorem invoice_search_wellformed (scheme : String) (mac inv : List Char)
    (hsch : scheme = "L402" ∨ scheme = "LSAT")
    (hmq : quoteChar ∉ mac) (hiq : quoteChar ∉ inv) (hi0 : inv ≠ [])
    (hmw : endsWithL "invoice=".data mac = false) :
    searchCapture invPat (mkL402Header scheme mac inv).data = some inv := by
  have hmw' : ∀ t, mac ≠ t ++ "invoice=".data :=
    (endsWithL_eq_false_iff _ _).mp hmw
  have hipat : invPat = 'i' :: ("nvoice=".data ++ [quoteChar]) := by decide
  have hmacRegion : ∀ tail2 : List Char,
      noStartIn invPat mac (quoteChar :: tail2) = true := by
    intro tail2
    have : noStartIn ("invoice=".data ++ [quoteChar]) mac (quoteChar :: tail2) = true :=
      noStartIn_value_region "invoice=".data mac tail2 (by decide) hmq hmw'
    simpa [invPat] using this
  have hfound : searchCapture invPat (invPat ++ (inv ++ quoteChar :: [])) = some inv :=
    searchCapture_found _ _ _ (by decide) hi0 hiq
  rcases hsch with rfl | rfl
  · have hgE : ("L402 macaroon=".data : List Char) = "L402".data ++ " macaroon=".data := by
      decide
    have hgB : (", invoice=".data : List Char) = ", ".data ++ "invoice=".data := by decide
    have hview : (mkL402Header "L402" mac inv).data
        = ("L402 macaroon=".data ++ [quoteChar])
            ++ (mac ++ ((quoteChar :: ", ".data)
              ++ (invPat ++ (inv ++ [quoteChar])))) := by
      show ("L402".data : List Char) ++ " macaroon=".data ++ [quoteChar] ++ mac
          ++ [quoteChar] ++ ", invoice=".data ++ [quoteChar] ++ inv ++ [quoteChar] = _
      simp [hgE, hgB, invPat, List.append_assoc]
    rw [hview,
      searchCapture_skip _ _ _ (by rw [hipat]; exact noStartIn_of_head_ne _ _ _ _ (by decide)),
      searchCapture_skip _ _ _ (by
        rw [List.cons_append]
        exact hmacRegion _),
      searchCapture_skip _ _ _ (by rw [hipat]; exact noStartIn_of_head_ne _ _ _ _ (by decide))]
    simpa using hfound
  · have hgE : ("LSAT macaroon=".data : List Char) = "LSAT".data ++ " macaroon=".data := by
      decide
    have hgB : (", invoice=".data : List Char) = ", ".data ++ "invoice=".data := by decide
    have hview : (mkL402Header "LSAT" mac inv).data
        = ("LSAT macaroon=".data ++ [quoteChar])
            ++ (mac ++ ((quoteChar :: ", ".data)
              ++ (invPat ++ (inv ++ [quoteChar])))) := by
      show ("LSAT".data : List Char) ++ " macaroon=".data ++ [quoteChar] ++ mac
          ++ [quoteChar] ++ ", invoice=".data ++ [quoteChar] ++ inv ++ [quoteChar] = _
      simp [hgE, hgB, invPat, List.append_assoc]
    rw [hview,
      searchCapture_skip _ _ _ (by rw [hipat]; exact noStartIn_of_head_ne _ _ _ _ (by decide)),
      searchCapture_skip _ _ _ (by
        rw [List.cons_append]
        exact hmacRegion _),
      searchCapture_skip _ _ _ (by rw [hipat]; exact noStartIn_of_head_ne _ _ _ _ (by decide))]
    simpa using hfound

theorem parse_l402_challenge_wellformed (decoder : String → Option DecodedInvoice)
    (scheme : String) (mac inv : List Char)
    (hsch : scheme = "L402" ∨ scheme = "LSAT")
    (hm0 : mac ≠ []) (hi0 : inv ≠ [])
    (hmq : quoteChar ∉ mac) (hiq : quoteChar ∉ inv)
    (hmw : endsWithL "invoice=".data mac = false) :
    parse_l402_challenge decoder (mkL402Header scheme mac inv)
      = .ok { macaroon := String.mk mac
              invoice := String.mk inv
              amount_msat := get_invoice_amount_msat decoder (String.mk inv) } := by
  have hmac := macaroon_search_wellformed scheme mac inv hsch hm0 hmq
  have hinv := invoice_search_wellformed scheme mac inv hsch hmq hiq hi0 hmw
  rcases hsch with rfl | rfl
  · have hgS : ("L402".data : List Char) ++ " macaroon=".data
        = "L402 ".data ++ "macaroon=".data := by decide
    have hguard : startsWithL "L402 ".data (mkL402Header "L402" mac inv).data = true := by
      have hview : (mkL402Header "L402" mac inv).data
          = "L402 ".data ++ ("macaroon=".data ++ ([quoteChar] ++ (mac ++ ([quoteChar]
              ++ (", invoice=".data ++ ([quoteChar] ++ (inv ++ [quoteChar]))))))) := by
        show ("L402".data : List Char) ++ " macaroon=".data ++ [quoteChar] ++ mac
            ++ [quoteChar] ++ ", invoice=".data ++ [quoteChar] ++ inv ++ [quoteChar] = _
        simp [hgS, List.append_assoc]
      rw [hview]
      exact startsWithL_append_self _ _
    simp only [parse_l402_challenge, hguard, Bool.true_or, if_true, hmac, hinv]
  · have hgS : ("LSAT".data : List Char) ++ " macaroon=".data
        = "LSAT ".data ++ "macaroon=".data := by decide
    have hguard : startsWithL "LSAT ".data (mkL402Header "LSAT" mac inv).data = true := by
      have hview : (mkL402Header "LSAT" mac inv).data
          = "LSAT ".data ++ ("macaroon=".data ++ ([quoteChar] ++ (mac ++ ([quoteChar]
              ++ (", invoice=".data ++ ([quoteChar] ++ (inv ++ [quoteChar]))))))) := by
        show ("LSAT".data : List Char) ++ " macaroon=".data ++ [quoteChar] ++ mac
            ++ [quoteChar] ++ ", invoice=".data ++ [quoteChar] ++ inv ++ [quoteChar] = _
        simp [hgS, List.append_assoc]
      rw [hview]
      exact startsWithL_append_self _ _
    simp only [parse_l402_challenge, hguard, Bool.or_true, if_true, hmac, hinv]

/-! ### Branch lemmas for `check_approval_level` -/

theorem overPaymentLimitB_eq_false_iff (limits : PaymentLimits) (u : ℚ) :
    overPaymentLimitB limits u = false
      ↔ ∀ lim, limits.max_per_payment = some lim → u ≤ lim := by
  cases h : limits.max_per_payment with
  | none => simp [overPaymentLimitB, h]
  | some lim => simp [overPaymentLimitB, h, not_lt]

theorem overSessionLimitB_eq_false_iff (limits : PaymentLimits) (spent u : ℚ) :
    overSessionLimitB limits spent u = false
      ↔ ∀ lim, limits.max_per_session = some lim → spent + u ≤ lim := by
  cases h : limits.max_per_session with
  | none => simp [overSessionLimitB, h]
  | some lim => simp [overSessionLimitB, h, not_lt]

theorem check_approval_level_remaining (config : UserBudgetConfiguration)
    (price now : ℚ) (s : SessionState) (a : Int) :
    (check_approval_level config price now s a).remaining_session_budget_usd
      = max 0 (orFalsy config.limits.max_per_session 999999999
          - sats_to_usd price s.session_spent_sats) := by
  simp only [check_approval_level]
  split_ifs <;> rfl

theorem check_approval_level_session_deny (config : UserBudgetConfiguration)
    (price now : ℚ) (s : SessionState) (a : Int) (L : ℚ)
    (hL : config.limits.max_per_session = some L)
    (hover : sats_to_usd price s.session_spent_sats + sats_to_usd price a > L) :
    check_approval_level config price now s a
      = { level := .deny
          amount_sats := a
          amount_usd := sats_to_usd price a
          denial_reason := some (.sessionLimit (sats_to_usd price a)
            (sats_to_usd price s.session_spent_sats)
            (orFalsy config.limits.max_per_session 999999999)
            (orFalsy config.limits.max_per_session 999999999
              - sats_to_usd price s.session_spent_sats))
          confirmation_message := none
          remaining_session_budget_usd :=
            max 0 (orFalsy config.limits.max_per_session 999999999
              - sats_to_usd price s.session_spent_sats) } := by
  have hb : overSessionLimitB config.limits
      (sats_to_usd price s.session_spent_sats) (sats_to_usd price a) = true := by
    simp [overSessionLimitB, hL, hover]
  simp [check_approval_level, hb]

theorem check_approval_level_not_denied (config : UserBudgetConfiguration)
    (price now : ℚ) (s : SessionState) (a : Int)
    (h1 : overSessionLimitB config.limits
      (sats_to_usd price s.session_spent_sats) (sats_to_usd price a) = false)
    (h2 : overPaymentLimitB config.limits (sats_to_usd price a) = false)
    (h3 : is_cooldown_elapsed config now s = true) :
    (check_approval_level config price now s a).level ≠ .deny
      ∧ (check_approval_level config price now s a).denial_reason = none := by
  simp only [check_approval_level, h1, h2, h3]
  split_ifs <;> simp_all

theorem check_approval_level_cooldown_deny (config : UserBudgetConfiguration)
    (price now : ℚ) (s : SessionState) (a : Int)
    (h1 : overSessionLimitB config.limits
      (sats_to_usd price s.session_spent_sats) (sats_to_usd price a) = false)
    (h2 : overPaymentLimitB config.limits (sats_to_usd price a) = false)
    (h3 : is_cooldown_elapsed config now s = false) :
    (check_approval_level config price now s a).level = .deny
      ∧ (check_approval_level config price now s a).denial_reason
        = some (.cooldown (config.session.cooldown_seconds
            - (now - s.last_payment_time))) := by
  simp [check_approval_level, h1, h2, h3]

theorem check_approval_level_deny_of_cooldown_active
    (config : UserBudgetConfiguration) (price now : ℚ) (s : SessionState) (a : Int)
    (h3 : is_cooldown_elapsed config now s = false) :
    (check_approval_level config price now s a).level = .deny := by
  simp only [check_approval_level]
  split_ifs <;> simp_all

theorem isCooldownDenial_false_of_elapsed (config : UserBudgetConfiguration)
    (price now : ℚ) (s : SessionState) (a : Int)
    (h3 : is_cooldown_elapsed config now s = true) :
    isCooldownDenial (check_approval_level config price now s a) = false := by
  simp only [check_approval_level]
  split_ifs <;> simp_all [isCooldownDenial]

/-! ### Concrete evaluation lemmas for the rational arithmetic -/

theorem roundHalfEven_intCast (n : Int) : roundHalfEven (n : ℚ) = n := by
  simp [roundHalfEven]

theorem round2_of_mul_eq (x : ℚ) (n : Int) (h : x * 100 = (n : ℚ)) :
    round2 x = (n : ℚ) / 100 := by
  rw [round2, h, roundHalfEven_intCast]

theorem sats_to_usd_of_mul_eq (price : ℚ) (sats : Int) (n : Int)
    (h : (sats : ℚ) / 100000000 * price * 100 = (n : ℚ)) :
    sats_to_usd price sats = (n : ℚ) / 100 := by
  rw [sats_to_usd, round2_of_mul_eq _ n h]

theorem sats_to_usd_100k_0 : sats_to_usd 100000 0 = 0 := by
  rw [sats_to_usd_of_mul_eq 100000 0 0 (by norm_num)]
  norm_num

theorem sats_to_usd_100k_500 : sats_to_usd 100000 500 = 1/2 := by
  rw [sats_to_usd_of_mul_eq 100000 500 50 (by norm_num)]
  norm_num

theorem sats_to_usd_100k_1000 : sats_to_usd 100000 1000 = 1 := by
  rw [sats_to_usd_of_mul_eq 100000 1000 100 (by norm_num)]
  norm_num

theorem sats_to_usd_100k_2000 : sats_to_usd 100000 2000 = 2 := by
  rw [sats_to_usd_of_mul_eq 100000 2000 200 (by norm_num)]
  norm_num

theorem sats_to_usd_100k_250000 : sats_to_usd 100000 250000 = 250 := by
  rw [sats_to_usd_of_mul_eq 100000 250000 25000 (by norm_num)]
  norm_num

/-! ### Claim theorems: budget service -/

/-- Counterexample to claim C2 as stated: with `maxPerSession` set to
`0`, the code's falsy `max_per_session or Decimal("999999999")` makes
every decision carry `remaining = max(0, 999999999 - spentUsd)` — here
`999999999` with nothing spent — while the claim's equation
`max(0, maxPerSession - spentUsd)` demands `0`. -/
theorem session_remaining_falsy_limit_counterexample :
    (⟨⟨1, 5, 25, 100⟩, ⟨none, some 0⟩, ⟨false, 0⟩⟩
        : UserBudgetConfiguration).limits.max_per_session = some 0
  ∧ (check_approval_level ⟨⟨1, 5, 25, 100⟩, ⟨none, some 0⟩, ⟨false, 0⟩⟩ 100000 5
      ⟨0, 0, 0, 0, 0, true⟩ 1000).remaining_session_budget_usd = 999999999
  ∧ max 0 ((0 : ℚ) - sats_to_usd 100000 0) = 0
  ∧ (999999999 : ℚ) ≠ 0 := by
  refine ⟨rfl, ?_, ?_, by norm_num⟩
  · rw [check_approval_level_remaining]
    show max 0 (orFalsy (some 0) 999999999 - sats_to_usd 100000 0) = 999999999
    rw [sats_to_usd_100k_0]
    simp [orFalsy]
  · rw [sats_to_usd_100k_0]
    norm_num

/-- Claim C2, amended: with `limits.maxPerSession` set (and the
unrelated per-payment and cooldown checks passing, which the claim's
parenthetical "never denied on the session limit" scopes out),
`check_approval_level` denies exactly when the session's converted USD
spend plus the payment's USD amount strictly exceeds the limit; and
every returned decision — for any state, amount, and instant — carries
`remaining_session_budget_usd = max 0 (limit - spentUsd)` when the limit
is non-zero, and `max 0 (999999999 - spentUsd)` when the limit is zero
(the falsy `or` fallback). -/
theorem check_approval_session_limit_exact (config : UserBudgetConfiguration)
    (price now : ℚ) (s : SessionState) (a : Int) (L : ℚ)
    (hL : config.limits.max_per_session = some L)
    (hp : ∀ lim, config.limits.max_per_payment = some lim → sats_to_usd price a ≤ lim)
    (hc : now - s.last_payment_time ≥ config.session.cooldown_seconds) :
    ((check_approval_level config price now s a).level = .deny
        ↔ sats_to_usd price s.session_spent_sats + sats_to_usd price a > L)
  ∧ (L ≠ 0 → ∀ (s2 : SessionState) (a2 : Int) (now2 : ℚ),
      (check_approval_level config price now2 s2 a2).remaining_session_budget_usd
        = max 0 (L - sats_to_usd price s2.session_spent_sats))
  ∧ (L = 0 → ∀ (s2 : SessionState) (a2 : Int) (now2 : ℚ),
      (check_approval_level config price now2 s2 a2).remaining_session_budget_usd
        = max 0 (999999999 - sats_to_usd price s2.session_spent_sats)) := by
  refine ⟨?_, ?_, ?_⟩
  · constructor
    · intro hdeny
      by_contra hnot
      push_neg at hnot
      have h1 : overSessionLimitB config.limits
          (sats_to_usd price s.session_spent_sats) (sats_to_usd price a) = false := by
        simp [overSessionLimitB, hL, not_lt, hnot]
      have h2 : overPaymentLimitB config.limits (sats_to_usd price a) = false :=
        (overPaymentLimitB_eq_false_iff _ _).mpr hp
      have h3 : is_cooldown_elapsed config now s = true := by
        simp [is_cooldown_elapsed, hc]
      exact (check_approval_level_not_denied config price now s a h1 h2 h3).1 hdeny
    · intro hover
      rw [check_approval_level_session_deny config price now s a L hL hover]
  · intro hL0 s2 a2 now2
    rw [check_approval_level_remaining]
    simp [orFalsy, hL, hL0]
  · intro hL0 s2 a2 now2
    rw [check_approval_level_remaining]
    simp [orFalsy, hL, hL0]

/-- Witness for the amended C2: limit $100, nothing spent, 250,000 sats
at $100,000/BTC (= $250): denial holds exactly because $0 + $250 > $100,
and the remaining budget is `max 0 (100 - 0)`. -/
theorem check_approval_session_limit_exact_witness :
    ((check_approval_level ⟨⟨1, 5, 25, 100⟩, ⟨none, some 100⟩, ⟨false, 0⟩⟩
        100000 5 ⟨0, 0, 0, 0, 0, true⟩ 250000).level = ApprovalLevel.deny
      ↔ sats_to_usd 100000 0 + sats_to_usd 100000 250000 > 100)
  ∧ (check_approval_level ⟨⟨1, 5, 25, 100⟩, ⟨none, some 100⟩, ⟨false, 0⟩⟩
        100000 5 ⟨0, 0, 0, 0, 0, true⟩ 250000).remaining_session_budget_usd
      = max 0 (100 - sats_to_usd 100000 0) :=
  ⟨(check_approval_session_limit_exact ⟨⟨1, 5, 25, 100⟩, ⟨none, some 100⟩, ⟨false, 0⟩⟩
      100000 5 ⟨0, 0, 0, 0, 0, true⟩ 250000 100 rfl
      (fun _ h => nomatch h) (by norm_num)).1,
   (check_approval_session_limit_exact ⟨⟨1, 5, 25, 100⟩, ⟨none, some 100⟩, ⟨false, 0⟩⟩
      100000 5 ⟨0, 0, 0, 0, 0, true⟩ 250000 100 rfl
      (fun _ h => nomatch h) (by norm_num)).2.1 (by norm_num)
      ⟨0, 0, 0, 0, 0, true⟩ 250000 5⟩

/-- Claim C3: with first-payment gating disabled, no active cooldown and
no limit exceeded, the converted USD amount is mapped through the tier
chain in ascending order — `<= autoApprove` gives AUTO_APPROVE (with
`can_proceed` and not `requires_confirmation`), then `<= logAndApprove`
gives LOG_AND_APPROVE, then `<= formConfirm` gives FORM_CONFIRM, and
everything larger (at or above `urlConfirm` alike) gives URL_CONFIRM;
the tier step alone never yields DENY. -/
theorem check_approval_tier_mapping (config : UserBudgetConfiguration)
    (price now : ℚ) (s : SessionState) (a : Int)
    (hreq : config.session.require_approval_for_first_payment = false)
    (hs : ∀ L, config.limits.max_per_session = some L →
      sats_to_usd price s.session_spent_sats + sats_to_usd price a ≤ L)
    (hp : ∀ lim, config.limits.max_per_payment = some lim → sats_to_usd price a ≤ lim)
    (hc : now - s.last_payment_time ≥ config.session.cooldown_seconds) :
    (sats_to_usd price a ≤ config.tiers.auto_approve →
        (check_approval_level config price now s a).level = .auto_approve
      ∧ (check_approval_level config price now s a).can_proceed = true
      ∧ (check_approval_level config price now s a).requires_confirmation = false)
  ∧ (config.tiers.auto_approve < sats_to_usd price a →
      sats_to_usd price a ≤ config.tiers.log_and_approve →
        (check_approval_level config price now s a).level = .log_and_approve)
  ∧ (config.tiers.auto_approve < sats_to_usd price a →
      config.tiers.log_and_approve < sats_to_usd price a →
      sats_to_usd price a ≤ config.tiers.form_confirm →
        (check_approval_level config price now s a).level = .form_confirm)
  ∧ (config.tiers.auto_approve < sats_to_usd price a →
      config.tiers.log_and_approve < sats_to_usd price a →
      config.tiers.form_confirm < sats_to_usd price a →
        (check_approval_level config price now s a).level = .url_confirm)
  ∧ (check_approval_level config price now s a).level ≠ .deny := by
  have h1 : overSessionLimitB config.limits
      (sats_to_usd price s.session_spent_sats) (sats_to_usd price a) = false :=
    (overSessionLimitB_eq_false_iff _ _ _).mpr hs
  have h2 : overPaymentLimitB config.limits (sats_to_usd price a) = false :=
    (overPaymentLimitB_eq_false_iff _ _).mpr hp
  have h3 : is_cooldown_elapsed config now s = true := by
    simp [is_cooldown_elapsed, hc]
  refine ⟨?_, ?_, ?_, ?_,
    (check_approval_level_not_denied config price now s a h1 h2 h3).1⟩
  · intro hauto
    simp [check_approval_level, h1, h2, h3, hreq, hauto,
      ApprovalCheckResult.can_proceed, ApprovalCheckResult.requires_confirmation]
  · intro hgt hle
    simp [check_approval_level, h1, h2, h3, hreq, not_le.mpr hgt, hle]
  · intro hgt1 hgt2 hle
    simp [check_approval_level, h1, h2, h3, hreq, not_le.mpr hgt1,
      not_le.mpr hgt2, hle]
  · intro hgt1 hgt2 hgt3
    simp only [check_approval_level, h1, h2, h3, hreq, Bool.and_false,
      Bool.not_true, if_false, Bool.false_eq_true]
    rw [if_neg (not_le.mpr hgt1), if_neg (not_le.mpr hgt2), if_neg (not_le.mpr hgt3)]
    split_ifs <;> rfl

/-- Witness for C3 at a concrete instance: 500 sats at $100,000/BTC
(= $0.50 ≤ autoApprove $1), gating disabled, no limits, no cooldown. -/
theorem check_approval_tier_mapping_witness :
    (check_approval_level ⟨⟨1, 5, 25, 100⟩, ⟨none, none⟩, ⟨false, 0⟩⟩ 100000 5
        ⟨0, 0, 0, 0, 0, true⟩ 500).level = ApprovalLevel.auto_approve
  ∧ (check_approval_level ⟨⟨1, 5, 25, 100⟩, ⟨none, none⟩, ⟨false, 0⟩⟩ 100000 5
        ⟨0, 0, 0, 0, 0, true⟩ 500).can_proceed = true
  ∧ (check_approval_level ⟨⟨1, 5, 25, 100⟩, ⟨none, none⟩, ⟨false, 0⟩⟩ 100000 5
        ⟨0, 0, 0, 0, 0, true⟩ 500).requires_confirmation = false :=
  (check_approval_tier_mapping ⟨⟨1, 5, 25, 100⟩, ⟨none, none⟩, ⟨false, 0⟩⟩ 100000 5
    ⟨0, 0, 0, 0, 0, true⟩ 500 rfl (fun _ h => nomatch h)
    (fun _ h => nomatch h) (by norm_num))
    |>.1 (by rw [sats_to_usd_100k_500]; norm_num)

/-- Counterexample to claim C6 as stated: a session state that is over
the session limit is denied within the cooldown window, but with the
session-limit reason, not a cooldown reason — so "for every session
state" the within-window denial does not carry the cooldown reason.
Here $2 are already spent against a $1 session limit; the call 5 seconds
after `record_payment_time` (cooldown 10s) is denied for the session
limit. -/
theorem cooldown_denial_reason_counterexample :
    ((105 : ℚ) - 100 < 10)
  ∧ (check_approval_level ⟨⟨1, 5, 25, 100⟩, ⟨none, some 1⟩, ⟨false, 10⟩⟩ 100000 105
      (record_payment_time 100 ⟨2000, 2, 1, 0, 0, false⟩) 1000).level = ApprovalLevel.deny
  ∧ isCooldownDenial (check_approval_level ⟨⟨1, 5, 25, 100⟩, ⟨none, some 1⟩, ⟨false, 10⟩⟩
      100000 105 (record_payment_time 100 ⟨2000, 2, 1, 0, 0, false⟩) 1000) = false := by
  have hover : sats_to_usd 100000 2000 + sats_to_usd 100000 1000 > (1 : ℚ) := by
    rw [sats_to_usd_100k_2000, sats_to_usd_100k_1000]
    norm_num
  have heq := check_approval_level_session_deny
    ⟨⟨1, 5, 25, 100⟩, ⟨none, some 1⟩, ⟨false, 10⟩⟩ 100000 105
    (record_payment_time 100 ⟨2000, 2, 1, 0, 0, false⟩) 1000 1 rfl hover
  exact ⟨by norm_num, by rw [heq], by rw [heq]; rfl⟩

/-- Claim C6, amended: for session states on which the session-limit and
per-payment checks pass, any `check_approval_level` call strictly inside
the cooldown window opened by `record_payment_time` is denied with the
cooldown reason carrying a positive remaining-seconds value; a call at
or after the window — for any state — is never denied for the cooldown
reason. -/
theorem cooldown_window_denial (config : UserBudgetConfiguration)
    (price : ℚ) (s : SessionState) (a : Int) (t0 now : ℚ) :
    ((∀ L, config.limits.max_per_session = some L →
        sats_to_usd price s.session_spent_sats + sats_to_usd price a ≤ L) →
      (∀ lim, config.limits.max_per_payment = some lim → sats_to_usd price a ≤ lim) →
      now - t0 < config.session.cooldown_seconds →
        (check_approval_level config price now (record_payment_time t0 s) a).level = .deny
      ∧ (check_approval_level config price now (record_payment_time t0 s) a).denial_reason
          = some (.cooldown (config.session.cooldown_seconds - (now - t0)))
      ∧ 0 < config.session.cooldown_seconds - (now - t0))
  ∧ (now - t0 ≥ config.session.cooldown_seconds →
      isCooldownDenial
        (check_approval_level config price now (record_payment_time t0 s) a) = false) := by
  constructor
  · intro hs hp hlt
    have h1 : overSessionLimitB config.limits
        (sats_to_usd price (record_payment_time t0 s).session_spent_sats)
        (sats_to_usd price a) = false :=
      (overSessionLimitB_eq_false_iff _ _ _).mpr hs
    have h2 : overPaymentLimitB config.limits (sats_to_usd price a) = false :=
      (overPaymentLimitB_eq_false_iff _ _).mpr hp
    have h3 : is_cooldown_elapsed config now (record_payment_time t0 s) = false := by
      simp [is_cooldown_elapsed, record_payment_time, not_le]
      exact hlt
    obtain ⟨hl, hr⟩ := check_approval_level_cooldown_deny config price now
      (record_payment_time t0 s) a h1 h2 h3
    exact ⟨hl, hr, by linarith⟩
  · intro hge
    apply isCooldownDenial_false_of_elapsed
    simp [is_cooldown_elapsed, record_payment_time, hge]

/-- Witness for the amended C6: cooldown 10s, payment recorded at t=100,
check at t=105 is denied for the cooldown with 5 seconds remaining. -/
theorem cooldown_window_denial_witness :
    (check_approval_level ⟨⟨1, 5, 25, 100⟩, ⟨none, none⟩, ⟨false, 10⟩⟩ 100000 105
        (record_payment_time 100 ⟨0, 0, 0, 0, 0, true⟩) 1000).level = ApprovalLevel.deny
  ∧ (check_approval_level ⟨⟨1, 5, 25, 100⟩, ⟨none, none⟩, ⟨false, 10⟩⟩ 100000 105
        (record_payment_time 100 ⟨0, 0, 0, 0, 0, true⟩) 1000).denial_reason
      = some (DenialReason.cooldown (10 - (105 - 100)))
  ∧ (0 : ℚ) < 10 - (105 - 100) :=
  (cooldown_window_denial ⟨⟨1, 5, 25, 100⟩, ⟨none, none⟩, ⟨false, 10⟩⟩ 100000
    ⟨0, 0, 0, 0, 0, true⟩ 1000 100 105).1
    (fun _ h => nomatch h) (fun _ h => nomatch h) (by norm_num)

/-- Claim C7: `record_spend` rejects every negative amount with the
validation error and leaves the session state — `session_spent_sats`,
`session_spent_usd`, `request_count`, `is_first_payment` and all —
exactly unchanged. -/
theorem record_spend_negative_rejected (price : ℚ) (s : SessionState) (a : Int)
    (h : a < 0) :
    record_spend price s a = (s, some "Amount cannot be negative") := by
  simp [record_spend, h]

/-- Witness for C7 at `amount = -1`. -/
theorem record_spend_negative_rejected_witness :
    record_spend 100000 ⟨0, 0, 0, 0, 0, true⟩ (-1)
      = (⟨0, 0, 0, 0, 0, true⟩, some "Amount cannot be negative") :=
  record_spend_negative_rejected 100000 ⟨0, 0, 0, 0, 0, true⟩ (-1) (by decide)

/-- Claim C10: `reset_session` zeroes the spend counters, sets
`is_first_payment` and a fresh `session_started`, but leaves
`last_payment_time` unchanged, so within the still-open cooldown window
every `check_approval_level` call is denied, and once the window elapses
the call is never denied for the cooldown reason. -/
theorem reset_session_frame (now : ℚ) (s : SessionState) :
    (reset_session now s).session_spent_sats = 0
  ∧ (reset_session now s).session_spent_usd = 0
  ∧ (reset_session now s).request_count = 0
  ∧ (reset_session now s).is_first_payment = true
  ∧ (reset_session now s).session_started = now
  ∧ (reset_session now s).last_payment_time = s.last_payment_time
  ∧ ∀ (config : UserBudgetConfiguration) (price t : ℚ) (a : Int),
      (t - s.last_payment_time < config.session.cooldown_seconds →
        (check_approval_level config price t (reset_session now s) a).level = .deny)
    ∧ (t - s.last_payment_time ≥ config.session.cooldown_seconds →
        isCooldownDenial (check_approval_level config price t (reset_session now s) a)
          = false) := by
  refine ⟨rfl, rfl, rfl, rfl, rfl, rfl, ?_⟩
  intro config price t a
  constructor
  · intro hlt
    apply check_approval_level_deny_of_cooldown_active
    simp [is_cooldown_elapsed, reset_session, not_le]
    exact hlt
  · intro hge
    apply isCooldownDenial_false_of_elapsed
    simp [is_cooldown_elapsed, reset_session, hge]

/-- Witness for C10: after a reset at t=7, the payment recorded at t=100
before the reset still denies a check at t=105 (cooldown 10s). -/
theorem reset_session_frame_witness :
    (reset_session 7 ⟨2000, 2, 3, 0, 100, false⟩).last_payment_time = 100
  ∧ (check_approval_level ⟨⟨1, 5, 25, 100⟩, ⟨none, none⟩, ⟨false, 10⟩⟩ 100000 105
      (reset_session 7 ⟨2000, 2, 3, 0, 100, false⟩) 1000).level = ApprovalLevel.deny :=
  ⟨(reset_session_frame 7 ⟨2000, 2, 3, 0, 100, false⟩).2.2.2.2.2.1,
   ((reset_session_frame 7 ⟨2000, 2, 3, 0, 100, false⟩).2.2.2.2.2.2
      ⟨⟨1, 5, 25, 100⟩, ⟨none, none⟩, ⟨false, 10⟩⟩ 100000 105 1000).1
     (by norm_num)⟩

/-! ### Claim theorems: fetch flow -/

/-- A decoder fixture: every invoice decodes with `amount_msat = 10000`
(10 sats). -/
def decTenSats : String → Option DecodedInvoice := fun _ => some ⟨some 10000, none⟩

/-- A decoder fixture: decoding always raises. -/
def decFails : String → Option DecodedInvoice := fun _ => none

/-- A wallet fixture: paying always succeeds with preimage `"aabb"`. -/
def payAabb : String → Except String String := fun _ => .ok "aabb"

/-- Claim C1, amended: when the initial response is a 402, the challenge
parses, the budget guard passes, the payment succeeds and the retried
response is an error status, `fetch` fails with the post-payment error —
which carries the retried status and response text, not the amount paid
or the preimage — and exactly one payment is attempted. -/
theorem fetch_post_payment_failure (decoder : String → Option DecodedInvoice)
    (max_sats : Nat) (initial : HttpResponse)
    (pay : String → Except String String) (retried : HttpResponse)
    (www : String) (ch : L402Challenge) (p : String)
    (h402 : initial.status = 402)
    (hwww : initial.www_authenticate = some www) (hne : www ≠ "")
    (hparse : parse_l402_challenge decoder www = .ok ch)
    (hbudget : amountExceedsB ch max_sats = false)
    (hpay : pay ch.invoice = .ok p)
    (hretr : retried.status ≥ 400) :
    fetch decoder max_sats initial pay retried
      = (.error (.l402Error (String.mk ("Request failed after payment: ".data
          ++ (toString retried.status).data ++ " ".data
          ++ retried.text.data.take 200))), 1) := by
  simp [fetch, h402, hwww, hne, hparse, hbudget, hpay, hretr]

/-- Witness for the amended C1 on concrete inputs. -/
theorem fetch_post_payment_failure_witness :
    fetch decTenSats 1000
      ⟨402, some (mkL402Header "L402" "YWJjZGVm".data "lnbc1".data), ""⟩
      payAabb ⟨500, none, "oops"⟩
      = (.error (.l402Error (String.mk ("Request failed after payment: ".data
          ++ (toString (500 : Nat)).data ++ " ".data ++ "oops".data.take 200))), 1) :=
  fetch_post_payment_failure decTenSats 1000
    ⟨402, some (mkL402Header "L402" "YWJjZGVm".data "lnbc1".data), ""⟩
    payAabb ⟨500, none, "oops"⟩
    (mkL402Header "L402" "YWJjZGVm".data "lnbc1".data)
    ⟨"YWJjZGVm", "lnbc1", some 10000⟩ "aabb"
    rfl rfl (by decide) (by decide) (by decide) rfl (by decide)

/-- Counterexample to claim C1 as stated: on the post-payment delivery
failure `fetch` does fail after exactly one payment, but the failure
outcome does not contain the preimage (`"aabb"`) nor the amount paid
(`10` sats) anywhere — the proof of payment and the amount are not
surfaced to the caller. -/
theorem fetch_post_payment_surfacing_counterexample :
    fetch decTenSats 1000
      ⟨402, some (mkL402Header "L402" "YWJjZGVm".data "lnbc1".data), ""⟩
      payAabb ⟨500, none, "oops"⟩
      = (.error (.l402Error "Request failed after payment: 500 oops"), 1)
  ∧ hasSub "aabb".data "Request failed after payment: 500 oops".data = false
  ∧ hasSub "10".data "Request failed after payment: 500 oops".data = false := by
  decide

/-- Claim C4: a 402 whose parsed challenge carries a derived amount
exceeding `max_sats` makes `fetch` fail with the budget-exceeded error,
with zero invocations of the wallet payment call. -/
theorem fetch_budget_guard (decoder : String → Option DecodedInvoice)
    (max_sats : Nat) (initial : HttpResponse)
    (pay : String → Except String String) (retried : HttpResponse)
    (www : String) (ch : L402Challenge) (a : Nat)
    (h402 : initial.status = 402)
    (hwww : initial.www_authenticate = some www) (hne : www ≠ "")
    (hparse : parse_l402_challenge decoder www = .ok ch)
    (hamt : ch.amount_sats = some a)
    (hgt : a > max_sats) :
    fetch decoder max_sats initial pay retried
      = (.error (.budgetExceeded (String.mk ("Invoice amount ".data
          ++ (toString a).data ++ " sats exceeds maximum ".data
          ++ (toString max_sats).data ++ " sats".data))), 0) := by
  have hb : amountExceedsB ch max_sats = true := by
    simp [amountExceedsB, hamt, hgt]
  simp [fetch, h402, hwww, hne, hparse, hb, hamt]

/-- Witness for C4: a 10-sat invoice against `max_sats = 5` is rejected
without paying. -/
theorem fetch_budget_guard_witness :
    fetch decTenSats 5
      ⟨402, some (mkL402Header "L402" "YWJjZGVm".data "lnbc1".data), ""⟩
      payAabb ⟨200, none, "yay"⟩
      = (.error (.budgetExceeded (String.mk ("Invoice amount ".data
          ++ (toString (10 : Nat)).data ++ " sats exceeds maximum ".data
          ++ (toString (5 : Nat)).data ++ " sats".data))), 0) :=
  fetch_budget_guard decTenSats 5
    ⟨402, some (mkL402Header "L402" "YWJjZGVm".data "lnbc1".data), ""⟩
    payAabb ⟨200, none, "yay"⟩
    (mkL402Header "L402" "YWJjZGVm".data "lnbc1".data)
    ⟨"YWJjZGVm", "lnbc1", some 10000⟩ 10
    rfl rfl (by decide) (by decide) (by decide) (by decide)

theorem parse_ok_amount (decoder : String → Option DecodedInvoice)
    (www : String) (ch : L402Challenge)
    (h : parse_l402_challenge decoder www = .ok ch) :
    ch.amount_msat = get_invoice_amount_msat decoder ch.invoice := by
  simp only [parse_l402_challenge] at h
  split at h
  · split at h
    · exact absurd h (by simp)
    · split at h
      · exact absurd h (by simp)
      · simp only [Except.ok.injEq] at h
        subst h
        rfl
  · exact absurd h (by simp)

/-- A decoder fixture: every invoice decodes with a zero amount. -/
def decZero : String → Option DecodedInvoice := fun _ => some ⟨some 0, none⟩

/-- Claim C9: when the invoice of a parsed 402 challenge fails to decode
or decodes to a zero amount, the challenge carries `amount_sats = none`,
and `fetch` skips the `max_sats` comparison entirely and proceeds to pay
— one payment is attempted for every `max_sats`, even `0`. -/
theorem zero_amount_invoice_skips_guard (decoder : String → Option DecodedInvoice)
    (www : String) (ch : L402Challenge)
    (hparse : parse_l402_challenge decoder www = .ok ch)
    (hdec : decoder ch.invoice = none
      ∨ ∃ dec, decoder ch.invoice = some dec
          ∧ truthyNat dec.amount_msat = false ∧ truthyNat dec.amount = false) :
    ch.amount_sats = none
  ∧ ∀ (max_sats : Nat) (initial : HttpResponse)
      (pay : String → Except String String) (retried : HttpResponse),
      initial.status = 402 → initial.www_authenticate = some www → www ≠ "" →
      (fetch decoder max_sats initial pay retried).2 = 1 := by
  have hmsat : ch.amount_msat = none := by
    rw [parse_ok_amount decoder www ch hparse]
    rcases hdec with h | ⟨dec, hd, h1, h2⟩
    · simp [get_invoice_amount_msat, h]
    · simp [get_invoice_amount_msat, hd, h1, h2]
  have hsats : ch.amount_sats = none := by
    simp [L402Challenge.amount_sats, hmsat]
  refine ⟨hsats, ?_⟩
  intro max_sats initial pay retried h402 hwww hne
  have hb : amountExceedsB ch max_sats = false := by
    simp [amountExceedsB, hsats]
  cases hpv : pay ch.invoice with
  | error e => simp [fetch, h402, hwww, hne, hparse, hb, hpv]
  | ok p =>
    by_cases hr : retried.status ≥ 400 <;>
      simp [fetch, h402, hwww, hne, hparse, hb, hpv, hr]

/-- Witness for C9: a zero-amount invoice lets `fetch` pay even with
`max_sats = 0`. -/
theorem zero_amount_invoice_skips_guard_witness :
    (⟨"YWJjZGVm", "lnbc1", none⟩ : L402Challenge).amount_sats = none
  ∧ (fetch decZero 0
      ⟨402, some (mkL402Header "L402" "YWJjZGVm".data "lnbc1".data), ""⟩
      payAabb ⟨200, none, "yay"⟩).2 = 1 :=
  ⟨(zero_amount_invoice_skips_guard decZero
      (mkL402Header "L402" "YWJjZGVm".data "lnbc1".data)
      ⟨"YWJjZGVm", "lnbc1", none⟩ (by decide)
      (Or.inr ⟨⟨some 0, none⟩, rfl, by decide, by decide⟩)).1,
   (zero_amount_invoice_skips_guard decZero
      (mkL402Header "L402" "YWJjZGVm".data "lnbc1".data)
      ⟨"YWJjZGVm", "lnbc1", none⟩ (by decide)
      (Or.inr ⟨⟨some 0, none⟩, rfl, by decide, by decide⟩)).2
      0 ⟨402, some (mkL402Header "L402" "YWJjZGVm".data "lnbc1".data), ""⟩
      payAabb ⟨200, none, "yay"⟩ rfl rfl (by decide)⟩

/-! ### Claim theorems: preimage validation -/

/-- Counterexample to claim C5 as stated: on the secret `"ab0xcd"` the
claim's normalization (strip an optional prefix, strip whitespace,
lowercase) yields `"ab0xcd"`, which is not strictly hex, so the claim
requires a validation error — but the code removes every occurrence of
`"0x"` and accepts, returning `"abcd"`. -/
theorem preimage_normalization_counterexample :
    pay_invoice_validate "ab0xcd" = .ok "abcd"
  ∧ specNormalizePreimage "ab0xcd" = "ab0xcd"
  ∧ "ab0xcd".data.all isHexChar = false := by
  decide

/-- Claim C5, amended: a secret resembling a payment-request string
(prefix `lnbc`/`lntb`/`lnurl`) is rejected with a distinct error; other
secrets are normalized by removing every occurrence of `"0x"` and every
space and lowercasing, and the normalized value is returned only if every
character is a strict hex digit, else a distinct validation error is
raised; an accepted value is always the normalized, all-hex value. -/
theorem preimage_validation (s : String) :
    ((startsWithL "lnbc".data s.data || startsWithL "lntb".data s.data
        || startsWithL "lnurl".data s.data) = true →
      pay_invoice_validate s = .error invoiceLikeMsg)
  ∧ ((startsWithL "lnbc".data s.data || startsWithL "lntb".data s.data
        || startsWithL "lnurl".data s.data) = false →
      ((normalizePreimage s).data.all isHexChar = true →
          pay_invoice_validate s = .ok (normalizePreimage s))
      ∧ ((normalizePreimage s).data.all isHexChar = false →
          pay_invoice_validate s = .error (hexErrMsg (normalizePreimage s))))
  ∧ invoiceLikeMsg ≠ hexErrMsg (normalizePreimage s)
  ∧ ∀ out, pay_invoice_validate s = .ok out →
      out = normalizePreimage s ∧ out.data.all isHexChar = true := by
  refine ⟨?_, ?_, ?_, ?_⟩
  · intro h
    simp [pay_invoice_validate, h]
  · intro h
    constructor
    · intro hhex
      simp [pay_invoice_validate, h, hhex]
    · intro hhex
      simp [pay_invoice_validate, h, hhex]
  · intro h
    have hdata := congrArg String.data h
    have hW : invoiceLikeMsg.data = 'W' :: "allet returned invoice instead of preimage. This may be a bug in your NWC wallet implementation.".data := by
      decide
    have hI : ("Invalid preimage format. Expected hex string, got: ".data : List Char)
        = 'I' :: "nvalid preimage format. Expected hex string, got: ".data := by
      decide
    rw [hW] at hdata
    simp only [hexErrMsg, hI, List.cons_append] at hdata
    injection hdata with h1 _
    exact absurd h1 (by decide)
  · intro out hout
    by_cases hpr : (startsWithL "lnbc".data s.data || startsWithL "lntb".data s.data
        || startsWithL "lnurl".data s.data) = true
    · rw [pay_invoice_validate, if_pos hpr] at hout
      exact absurd hout (by simp)
    · rw [pay_invoice_validate, if_neg hpr] at hout
      by_cases hhex : (normalizePreimage s).data.all isHexChar = true
      · rw [if_pos hhex] at hout
        injection hout with h1
        exact ⟨h1.symm, h1 ▸ hhex⟩
      · rw [if_neg hhex] at hout
        exact absurd hout (by simp)

/-- Witness for the amended C5: `"0xAB cd"` normalizes to `"abcd"` and is
accepted. -/
theorem preimage_validation_witness :
    pay_invoice_validate "0xAB cd" = .ok "abcd" := by
  have h := ((preimage_validation "0xAB cd").2.1 (by decide)).1 (by decide)
  rwa [show normalizePreimage "0xAB cd" = "abcd" from by decide] at h

/-! ### Claim theorems: challenge parsing -/

/-- Counterexample to claim C8 as stated: with the base64-alphabet
macaroon value `"invoice="`, the leftmost `invoice="([^"]+)"` match
starts inside the macaroon attribute and captures `", invoice="`, not
the embedded payment request — so a header of the claimed shape does not
parse to exactly its two attribute values. -/
theorem challenge_form_counterexample :
    parse_l402_challenge decFails (mkL402Header "L402" "invoice=".data "lnbc1".data)
      = .ok { macaroon := "invoice=", invoice := ", invoice=", amount_msat := none }
  ∧ (", invoice=" : String) ≠ "lnbc1" := by
  decide

/-- Claim C8, amended: a header
`<scheme> macaroon="<mac>", invoice="<inv>"` with non-empty, quote-free
attribute values whose macaroon does not itself end in the text
`invoice=` parses to exactly those macaroon and invoice values (with the
amount obtained from the invoice decoder), the legacy `LSAT` scheme
parses identically to `L402`, a header missing either quoted attribute
or carrying an unrecognized scheme fails with the descriptive error, and
the derived `amount_sats` is `amount_msat / 1000` (floor). -/
theorem challenge_parsing (decoder : String → Option DecodedInvoice)
    (scheme : String) (mac inv : List Char)
    (hsch : scheme = "L402" ∨ scheme = "LSAT")
    (hm0 : mac ≠ []) (hi0 : inv ≠ [])
    (hmq : quoteChar ∉ mac) (hiq : quoteChar ∉ inv)
    (hmw : endsWithL "invoice=".data mac = false) :
    parse_l402_challenge decoder (mkL402Header scheme mac inv)
      = .ok { macaroon := String.mk mac
              invoice := String.mk inv
              amount_msat := get_invoice_amount_msat decoder (String.mk inv) }
  ∧ parse_l402_challenge decoder (mkL402Header "LSAT" mac inv)
      = parse_l402_challenge decoder (mkL402Header "L402" mac inv)
  ∧ parse_l402_challenge decoder (String.mk ("L402 invoice=".data ++ [quoteChar]
      ++ "lnbc10n1...".data ++ [quoteChar]))
      = .error "Missing macaroon in L402 challenge"
  ∧ parse_l402_challenge decoder (String.mk ("L402 macaroon=".data ++ [quoteChar]
      ++ "YWJjZGVm".data ++ [quoteChar]))
      = .error "Missing invoice in L402 challenge"
  ∧ parse_l402_challenge decoder "Basic realm=test"
      = .error "Invalid L402 challenge: Basic realm=test"
  ∧ ∀ (mac2 inv2 : String) (msat : Nat),
      L402Challenge.amount_sats ⟨mac2, inv2, some msat⟩ = some (msat / 1000) := by
  refine ⟨parse_l402_challenge_wellformed decoder scheme mac inv hsch hm0 hi0 hmq hiq hmw,
    ?_, rfl, rfl, rfl, fun _ _ _ => rfl⟩
  rw [parse_l402_challenge_wellformed decoder "LSAT" mac inv (Or.inr rfl) hm0 hi0 hmq hiq hmw,
    parse_l402_challenge_wellformed decoder "L402" mac inv (Or.inl rfl) hm0 hi0 hmq hiq hmw]

/-- Witness for the amended C8 at the spec's concrete header. -/
theorem challenge_parsing_witness :
    parse_l402_challenge decTenSats
        (mkL402Header "L402" "YWJjZGVm".data "lnbc10n1...".data)
      = .ok { macaroon := "YWJjZGVm", invoice := "lnbc10n1...", amount_msat := some 10000 } :=
  (challenge_parsing decTenSats "L402" "YWJjZGVm".data "lnbc10n1...".data
    (Or.inl rfl) (by decide) (by decide) (by decide) (by decide) (by decide)).1
